import Mathlib

/-!
Shallow embedding of the hexya temporal value-type library
(`models/types/dates/date.go` and the legacy `models` package file).

Go's `time.Time` (always UTC here, no monotonic clock, which is all this
library uses) is modelled as a count of seconds since the zero instant
January 1, year 1, 00:00:00 UTC plus a nanosecond component.  Calendar
conversion (Go's `absDate`) is modelled by the standard proleptic-Gregorian
civil-from-days / days-from-civil algorithms, which compute exactly the same
year/month/day as Go's 400-year-cycle computation.  `/` and `%` on `Int`
are Lean's Euclidean division, which agrees with floor division for the
positive literal divisors used throughout.
-/

namespace Hexya

/-- Model of Go `time.Time` restricted to UTC wall-clock time: `sec` is the
number of seconds since January 1, year 1, 00:00:00 UTC (negative before it)
and `nsec` the sub-second nanoseconds (`0 ≤ nsec < 10^9`). -/
structure GoTime where
  sec : Int
  nsec : Nat
deriving DecidableEq, Repr

/-- Go's zero `time.Time`: January 1, year 1, 00:00:00 UTC. -/
def timeZero : GoTime := ⟨0, 0⟩

/-- Go `time.Time.IsZero`: reports whether the instant is exactly the zero
instant (a raw-instant comparison, not a formatted one). -/
def GoTime.isZero (t : GoTime) : Bool :=
  t.sec == 0 && t.nsec == 0

/-- The calendar-day number of an instant (day 0 is January 1, year 1);
floor division, so pre-epoch instants land on the correct earlier day. -/
def GoTime.dayNumber (t : GoTime) : Int :=
  t.sec / 86400

/-- Seconds elapsed since midnight of the instant's calendar day. -/
def GoTime.todSec (t : GoTime) : Nat :=
  (t.sec % 86400).toNat

/-! ### Gregorian civil-date conversion (Go's `absDate` and `Date`) -/

/-- 400-year era of day number `z` (day 0 is 0001-01-01); the era boundary
sits 306 days before day 0 (at 0000-03-01, the start of a March-based
year), as in Go's `absDate` 400-year-cycle computation. -/
def eraOfDay (z : Int) : Int :=
  (z + 306) / 146097

/-- Day within the 400-year era (`0..146096`) of day number `z`. -/
def doeOfDay (z : Int) : Nat :=
  ((z + 306) % 146097).toNat

/-- Day count adjusted by the leap days within the era. -/
def adjDays (d : Nat) : Nat :=
  d - d / 1460 + d / 36524 - d / 146096

/-- Year of era (`0..399`, March-based) from the day of era. -/
def yoeOfDoe (doe : Nat) : Nat :=
  adjDays doe / 365

/-- Number of era days preceding March-based year `y` of the era. -/
def eraDaysBefore (y : Nat) : Nat :=
  365 * y + y / 4 - y / 100

/-- Day of the March-based year (`0..365`) from the day of era. -/
def doyOfDoe (doe : Nat) : Nat :=
  doe - eraDaysBefore (yoeOfDoe doe)

/-- Shifted month (`0` = March .. `11` = February) from the day of era. -/
def mpOfDoe (doe : Nat) : Nat :=
  (5 * doyOfDoe doe + 2) / 153

/-- Month (1..12) of the Gregorian civil date of day number `z`. -/
def civilM (z : Int) : Nat :=
  if mpOfDoe (doeOfDay z) < 10 then mpOfDoe (doeOfDay z) + 3
  else mpOfDoe (doeOfDay z) - 9

/-- Day of month (1..31) of the Gregorian civil date of day number `z`. -/
def civilD (z : Int) : Nat :=
  doyOfDoe (doeOfDay z) - (153 * mpOfDoe (doeOfDay z) + 2) / 5 + 1

/-- Year of the Gregorian civil date of day number `z` (day 0 is
0001-01-01).  This is the `y` component of Go's `absDate`. -/
def civilY (z : Int) : Int :=
  (yoeOfDoe (doeOfDay z) : Int) + eraOfDay z * 400 +
    (if civilM z ≤ 2 then 1 else 0)

/-- Day number (day 0 is 0001-01-01) of the Gregorian civil date
`(y, m, d)`; inverse of `civilY`/`civilM`/`civilD`. -/
def daysFromCivil (y : Int) (m d : Nat) : Int :=
  let y' : Int := if m ≤ 2 then y - 1 else y
  let era := y' / 400
  let yoe := (y' - era * 400).toNat
  let mp := if 2 < m then m - 3 else m + 9
  let doy := (153 * mp + 2) / 5 + d - 1
  let doe := eraDaysBefore yoe + doy
  era * 146097 + (doe : Int) - 306

/-- The instant at `(y, m, d)` `hh:mi:ss` UTC with zero nanoseconds. -/
def mkCivil (y : Int) (m d hh mi ss : Nat) : GoTime :=
  ⟨daysFromCivil y m d * 86400 + (hh * 3600 + mi * 60 + ss), 0⟩

/-- Go `isLeap`: Gregorian leap-year test. -/
def isLeap (y : Int) : Bool :=
  y % 4 == 0 && (y % 100 != 0 || y % 400 == 0)

/-- Go `daysIn`: the number of days of month `m` in year `y`. -/
def daysInMonth (m : Nat) (y : Int) : Nat :=
  if m = 2 then (if isLeap y then 29 else 28)
  else if m = 4 ∨ m = 6 ∨ m = 9 ∨ m = 11 then 30
  else 31

/-- Last day of era belonging to March-based year `y` of the era. -/
def eraLastDay (y : Nat) : Nat :=
  if y = 399 then 146096 else eraDaysBefore (y + 1) - 1


/-! ### Decimal rendering and digit parsing (Go `appendInt` / `getnum`) -/

/-- The decimal digit character for `n ≤ 9`. -/
def digitChar (n : Nat) : Char := Char.ofNat (48 + n)

/-- Go `isDigit`. -/
def isDigitC (c : Char) : Bool := 48 ≤ c.toNat && c.toNat ≤ 57

/-- Numeric value of a digit character. -/
def digitVal (c : Char) : Nat := c.toNat - 48

/-- Two-digit zero-padded rendering (Go `appendInt` with width 2; every
call site passes `n < 100`). -/
def pad2 (n : Nat) : List Char := [digitChar (n / 10), digitChar (n % 10)]

/-- Full decimal rendering, fuel-structured so the kernel can evaluate it
(the fuel is consumed once per digit, so `n + 1` is always enough). -/
def natCharsAux : Nat → Nat → List Char
  | 0, _ => []
  | fuel + 1, n =>
    if n < 10 then [digitChar n]
    else natCharsAux fuel (n / 10) ++ [digitChar (n % 10)]

/-- Full decimal rendering of a natural number. -/
def natChars (n : Nat) : List Char := natCharsAux (n + 1) n

/-- Zero-pad a digit string to width 4 (Go `appendInt` padding). -/
def padTo4 (l : List Char) : List Char := List.replicate (4 - l.length) '0' ++ l

/-- Go `appendInt(year, 4)`: negative years print a sign then the padded
digits, years up to 9999 print as exactly four digits, larger years print
in full. -/
def yearChars (y : Int) : List Char :=
  if y < 0 then '-' :: padTo4 (natChars (-y).toNat)
  else if y < 10000 then
    [digitChar (y.toNat / 1000), digitChar (y.toNat / 100 % 10),
     digitChar (y.toNat / 10 % 10), digitChar (y.toNat % 10)]
  else natChars y.toNat

/-! ### Go `Time.Format` at the two layouts used by the package -/

/-- Characters of Go `t.Format("2006-01-02")`. -/
def formatDateChars (t : GoTime) : List Char :=
  yearChars (civilY t.dayNumber)
    ++ '-' :: pad2 (civilM t.dayNumber)
    ++ '-' :: pad2 (civilD t.dayNumber)

/-- Go `t.Format("2006-01-02")`. -/
def formatDateStr (t : GoTime) : String := String.mk (formatDateChars t)

/-- Characters of the `15:04:05` clock part of Go `Time.Format`. -/
def clockChars (t : GoTime) : List Char :=
  pad2 (t.todSec / 3600)
    ++ ':' :: pad2 (t.todSec % 3600 / 60)
    ++ ':' :: pad2 (t.todSec % 60)

/-- Characters of Go `t.Format("2006-01-02 15:04:05")`. -/
def formatDateTimeChars (t : GoTime) : List Char :=
  formatDateChars t ++ ' ' :: clockChars t

/-- Go `t.Format("2006-01-02 15:04:05")`. -/
def formatDateTimeStr (t : GoTime) : String := String.mk (formatDateTimeChars t)

/-! ### Go `time.Parse` at the two layouts used by the package -/

/-- Go `getnum` with `fixed = true`: exactly two digits. -/
def getnum2 (l : List Char) : Option (Nat × List Char) :=
  match l with
  | c1 :: c2 :: rest =>
    if isDigitC c1 && isDigitC c2 then
      some (digitVal c1 * 10 + digitVal c2, rest)
    else none
  | _ => none

/-- Go `getnum` with `fixed = false` (layout chunk `15`): one digit, or two
when the second character is also a digit. -/
def getnum1or2 (l : List Char) : Option (Nat × List Char) :=
  match l with
  | c1 :: c2 :: rest =>
    if isDigitC c1 then
      if isDigitC c2 then some (digitVal c1 * 10 + digitVal c2, rest)
      else some (digitVal c1, c2 :: rest)
    else none
  | [c1] => if isDigitC c1 then some (digitVal c1, []) else none
  | [] => none

/-- Go layout chunk `2006`: exactly four digits (`atoi` of the four-char
slice fails on any non-digit, and the first char is checked up front). -/
def getYear4 (l : List Char) : Option (Nat × List Char) :=
  match l with
  | c1 :: c2 :: c3 :: c4 :: rest =>
    if isDigitC c1 && isDigitC c2 && isDigitC c3 && isDigitC c4 then
      some (digitVal c1 * 1000 + digitVal c2 * 100 + digitVal c3 * 10
        + digitVal c4, rest)
    else none
  | _ => none

/-- Matching a literal layout character against the value. -/
def expectChar (c : Char) (l : List Char) : Option (List Char) :=
  match l with
  | c1 :: rest => if c1 = c then some rest else none
  | [] => none

/-- The `2006-01-02` part of a parse: year, month, day and leftover. -/
def parseYMD (l : List Char) : Option (Nat × Nat × Nat × List Char) := do
  let (y, l1) ← getYear4 l
  let l2 ← expectChar '-' l1
  let (m, l3) ← getnum2 l2
  let l4 ← expectChar '-' l3
  let (d, l5) ← getnum2 l4
  pure (y, m, d, l5)

/-- Go `Parse`'s month/day validation: `month` in 1..12 and `day` in
1..`daysIn(month, year)`. -/
def validYMD (y m d : Nat) : Bool :=
  1 ≤ m && m ≤ 12 && 1 ≤ d && d ≤ daysInMonth m (y : Int)

/-- Go `time.Parse("2006-01-02", s)` (UTC, no offset in the layout):
`none` models a returned `ParseError`. -/
def parseDateLayout (s : String) : Option GoTime :=
  match parseYMD s.data with
  | some (y, m, d, []) =>
    if validYMD y m d then some (mkCivil (y : Int) m d 0 0 0) else none
  | _ => none

/-- The `15:04:05` part of a parse: hour, minute, second and leftover. -/
def parseClock (l : List Char) : Option (Nat × Nat × Nat × List Char) := do
  let (hh, l1) ← getnum1or2 l
  let l2 ← expectChar ':' l1
  let (mi, l3) ← getnum2 l2
  let l4 ← expectChar ':' l3
  let (ss, l5) ← getnum2 l4
  pure (hh, mi, ss, l5)

/-- Go `time.Parse("2006-01-02 15:04:05", s)`: `none` models a returned
`ParseError` (including the hour/minute/second range checks). -/
def parseDateTimeLayout (s : String) : Option GoTime :=
  match parseYMD s.data with
  | some (y, m, d, rest) =>
    match expectChar ' ' rest with
    | some rest1 =>
      match parseClock rest1 with
      | some (hh, mi, ss, []) =>
        if validYMD y m d && hh ≤ 23 && mi ≤ 59 && ss ≤ 59 then
          some (mkCivil (y : Int) m d hh mi ss)
        else none
      | _ => none
    | _ => none
  | _ => none

/-- Go `time.Parse` restricted to the two layouts this package uses; like
Go it returns the zero `Time` together with the error when parsing fails. -/
def goTimeParse (layout value : String) : GoTime × Option String :=
  if layout = "2006-01-02" then
    match parseDateLayout value with
    | some t => (t, none)
    | none => (timeZero, some ("cannot parse " ++ value ++ " as 2006-01-02"))
  else if layout = "2006-01-02 15:04:05" then
    match parseDateTimeLayout value with
    | some t => (t, none)
    | none =>
      (timeZero, some ("cannot parse " ++ value ++ " as 2006-01-02 15:04:05"))
  else (timeZero, some "unsupported layout")

/-! ### Shared Go runtime pieces: durations, driver values, scan sources -/

/-- Go `time.Time.Sub`: the difference in nanoseconds, saturating at the
`int64` `Duration` bounds. -/
def durSub (t u : GoTime) : Int :=
  let d := (t.sec - u.sec) * 1000000000 + ((t.nsec : Int) - (u.nsec : Int))
  if d < -(2 ^ 63) then -(2 ^ 63)
  else if 2 ^ 63 - 1 < d then 2 ^ 63 - 1
  else d

/-- The `driver.Value` dynamic values this library produces: a `time.Time`,
a legacy `models.Date` passed through unchanged, a string, or SQL NULL
(which the library never produces). -/
inductive DriverValue where
  | timeV (t : GoTime)
  | modelsDateV (t : GoTime)
  | stringV (s : String)
  | nullV
deriving DecidableEq, Repr

/-- Dynamic values a database driver may hand to `Scan` (the concrete
types relevant to the sources and their tests). -/
inductive SqlValue where
  | timeV (t : GoTime)
  | stringV (s : String)
  | int64V (n : Int)
  | float64V (q : Int)
  | boolV (b : Bool)
  | bytesV (bs : List Nat)
  | stringSliceV (l : List String)
  | nilV
deriving DecidableEq, Repr

/-- Go's `%T` formatting of the dynamic type of a scan source. -/
def SqlValue.typeName : SqlValue → String
  | .timeV _ => "time.Time"
  | .stringV _ => "string"
  | .int64V _ => "int64"
  | .float64V _ => "float64"
  | .boolV _ => "bool"
  | .bytesV _ => "[]uint8"
  | .stringSliceV _ => "[]string"
  | .nilV => "<nil>"

/-- Go `strings.Trim(s, "\"")`: drop every leading and trailing quote. -/
def trimQuotes (l : List Char) : List Char :=
  ((l.dropWhile (fun c => c == '"')).reverse.dropWhile (fun c => c == '"')).reverse

/-- Strip one pair of surrounding double quotes, if present. -/
def unquote (l : List Char) : Option (List Char) :=
  match l with
  | '"' :: rest =>
    match rest.getLast? with
    | some c => if c = '"' then some rest.dropLast else none
    | none => none
  | _ => none

/-! ### The `dates` package (`models/types/dates/date.go`) -/

namespace Dates

/-- `DefaultServerDateFormat`, the Go layout for `Date` objects. -/
def DefaultServerDateFormat : String := "2006-01-02"

/-- Modelled from the spec: the companion `DefaultServerDateTimeFormat`
constant lives in the dates package's date-time source file, which is
absent from the sources; the spec fixes the canonical DateTime layout to
`YYYY-MM-DD HH:MM:SS`, i.e. the Go layout `2006-01-02 15:04:05`. -/
def DefaultServerDateTimeFormat : String := "2006-01-02 15:04:05"

/-- `Date`: a struct embedding a `time.Time`. -/
structure Date where
  time : GoTime
deriving DecidableEq, Repr

/-- `DateTime`: the dates-package date-time type, a struct embedding a
`time.Time` (its own source file is absent; the struct shape is visible in
`Date.ToDateTime`, which builds `DateTime{d.Time}`). -/
structure DateTime where
  time : GoTime
deriving DecidableEq, Repr

/-- The promoted `time.Time.IsZero` method of the embedded instant. -/
def Date.isZero (d : Date) : Bool := d.time.isZero

/-- `Date.ToDateTime`: `DateTime{d.Time}`. -/
def Date.toDateTime (d : Date) : DateTime := ⟨d.time⟩

/-- `Date.MarshalJSON`: `false` for a zero date, otherwise the
`"YYYY-MM-DD"` quoted canonical form. -/
def Date.marshalJSON (d : Date) : String :=
  if d.isZero then "false"
  else String.mk ('"' :: formatDateChars d.time ++ ['"'])

/-- `Date.String`: the JSON form with quotes trimmed. -/
def Date.string (d : Date) : String :=
  String.mk (trimQuotes d.marshalJSON.data)

/-- `Date.Equal`: day-precision formatted-string comparison. -/
def Date.equal (d other : Date) : Bool := d.string == other.string

/-- `Date.Sub`: `time.Time.Sub` of the embedded instants (a `Duration` in
nanoseconds, saturating at the `int64` bounds). -/
def Date.sub (d t : Date) : Int := durSub d.time t.time

/-- `Date.Greater`: `d.Sub(other) > 0`. -/
def Date.greater (d other : Date) : Bool := decide (0 < d.sub other)

/-- `Date.GreaterEqual`: `d.Sub(other) >= 0`. -/
def Date.greaterEqual (d other : Date) : Bool := decide (0 ≤ d.sub other)

/-- `Date.Lower`: `d.Sub(other) < 0`. -/
def Date.lower (d other : Date) : Bool := decide (d.sub other < 0)

/-- `Date.LowerEqual`: `d.Sub(other) <= 0`. -/
def Date.lowerEqual (d other : Date) : Bool := decide (d.sub other ≤ 0)

/-- `Date.Value`: the zero `time.Time` for a zero date, otherwise the
embedded instant, always as a `driver.Value` holding a `time.Time`. -/
def Date.value (d : Date) : DriverValue :=
  if d.isZero then .timeV timeZero else .timeV d.time

/-- `ParseDateWithLayout`: `time.Parse` under the given layout, returning
the date (zero on failure) together with the parse error. -/
def ParseDateWithLayout (layout value : String) : Date × Option String :=
  ((⟨(goTimeParse layout value).1⟩ : Date), (goTimeParse layout value).2)

/-- `ParseDate`: parse under `DefaultServerDateFormat`, panicking (modelled
as `none`) when parsing fails. -/
def ParseDate (value : String) : Option Date :=
  match ParseDateWithLayout DefaultServerDateFormat value with
  | (d, none) => some d
  | (_, some _) => none

/-- `Date.Scan`: copy a `time.Time` through; treat the empty string as the
zero date; parse a non-empty string first with the date layout and then
with the date-time layout; reject every other dynamic type with an error
naming it.  The result is the new receiver value and the returned error. -/
def Date.scan (d : Date) (src : SqlValue) : Date × Option String :=
  match src with
  | .timeV t => (⟨t⟩, none)
  | .stringV s =>
    if s = "" then ((⟨timeZero⟩ : Date), none)
    else
      match ParseDateWithLayout DefaultServerDateFormat s with
      | (val, none) => (val, none)
      | (_, some _) => ParseDateWithLayout DefaultServerDateTimeFormat s
  | _ => (d, some ("date data is not time.Time but " ++ src.typeName))

/-- Modelled from the spec: `Date.UnmarshalJSON` lives in source absent
from the sources; per the spec's JSON contract it accepts the null
sentinel (`false`, and the generic `null`) by reconstructing the zero
value, and otherwise parses the quoted canonical `YYYY-MM-DD` form,
failing with a decode error on anything else. -/
def Date.unmarshalJSON (data : String) : Except String Date :=
  if data = "false" || data = "null" then .ok ⟨timeZero⟩
  else
    match unquote data.data with
    | some inner =>
      match ParseDateWithLayout DefaultServerDateFormat (String.mk inner) with
      | (val, none) => .ok val
      | (_, some e) => .error e
    | none => .error "invalid date in JSON"

/-- Modelled from the spec: the promoted `time.Time.IsZero` of the
dates-package `DateTime`, whose source file is absent. -/
def DateTime.isZero (d : DateTime) : Bool := d.time.isZero

/-- Modelled from the spec: `DateTime.MarshalJSON` (source file absent)
encodes a null value as the `null` sentinel and a non-null value as the
double-quoted canonical `YYYY-MM-DD HH:MM:SS` form, mirroring
`Date.MarshalJSON`. -/
def DateTime.marshalJSON (d : DateTime) : String :=
  if d.isZero then "null"
  else String.mk ('"' :: formatDateTimeChars d.time ++ ['"'])

/-- Modelled from the spec: `DateTime.String` (source file absent), the
JSON form with quotes trimmed, mirroring `Date.String`. -/
def DateTime.string (d : DateTime) : String :=
  String.mk (trimQuotes d.marshalJSON.data)

/-- Modelled from the spec: `DateTime.Equal` (source file absent) compares
the second-precision formatted strings, mirroring `Date.Equal`. -/
def DateTime.equal (d other : DateTime) : Bool := d.string == other.string

/-- Modelled from the spec: `ParseDateTimeWithLayout` (source file absent),
`time.Parse` under the given layout returning the date-time (zero on
failure) together with the parse error, mirroring `ParseDateWithLayout`. -/
def ParseDateTimeWithLayout (layout value : String) : DateTime × Option String :=
  ((⟨(goTimeParse layout value).1⟩ : DateTime), (goTimeParse layout value).2)

/-- Modelled from the spec: `DateTime.UnmarshalJSON` (source file absent)
accepts the null sentinel by reconstructing the zero value and otherwise
parses the quoted canonical `YYYY-MM-DD HH:MM:SS` form, failing with a
decode error on anything else. -/
def DateTime.unmarshalJSON (data : String) : Except String DateTime :=
  if data = "null" || data = "false" then .ok ⟨timeZero⟩
  else
    match unquote data.data with
    | some inner =>
      match ParseDateTimeWithLayout DefaultServerDateTimeFormat (String.mk inner) with
      | (val, none) => .ok val
      | (_, some e) => .error e
    | none => .error "invalid datetime in JSON"

end Dates

/-! ### The legacy `models` package (first unnamed source file) -/

namespace Models

/-- `models.Date`: `type Date time.Time`. -/
structure Date where
  time : GoTime
deriving DecidableEq, Repr

/-- `models.Date.IsNull`: the day-precision format equals `"0001-01-01"`. -/
def Date.isNull (d : Date) : Bool :=
  formatDateStr d.time == "0001-01-01"

/-- `models.Date.MarshalJSON`: `null` for a null date, otherwise the
quoted `YYYY-MM-DD` form. -/
def Date.marshalJSON (d : Date) : String :=
  if d.isNull then "null"
  else String.mk ('"' :: formatDateChars d.time ++ ['"'])

/-- `models.Date.Value`: the string `"0001-01-01"` for a null date,
otherwise the `Date` value itself boxed as a `driver.Value`. -/
def Date.value (d : Date) : DriverValue :=
  if d.isNull then .stringV "0001-01-01" else .modelsDateV d.time

/-- `models.DateTime`: `type DateTime time.Time`. -/
structure DateTime where
  time : GoTime
deriving DecidableEq, Repr

/-- `models.DateTime.IsNull`: the second-precision format equals
`"0001-01-01 00:00:00"`. -/
def DateTime.isNull (d : DateTime) : Bool :=
  formatDateTimeStr d.time == "0001-01-01 00:00:00"

/-- `models.DateTime.MarshalJSON`: `null` for a null value, otherwise the
quoted `YYYY-MM-DD HH:MM:SS` form. -/
def DateTime.marshalJSON (d : DateTime) : String :=
  if d.isNull then "null"
  else String.mk ('"' :: formatDateTimeChars d.time ++ ['"'])

/-- `models.DateTime.Value`: the string `"0001-01-01 00:00:00"` for a null
value, otherwise the second-precision formatted string. -/
def DateTime.value (d : DateTime) : DriverValue :=
  if d.isNull then .stringV "0001-01-01 00:00:00"
  else .stringV (formatDateTimeStr d.time)

/-- Dynamic values held in a `FieldMap` (`interface{}`), the concrete
types relevant to `RemovePKIfZero`. -/
inductive FieldValue where
  | int64V (n : Int)
  | intV (n : Int)
  | stringV (s : String)
  | boolV (b : Bool)
  | nilV
deriving DecidableEq, Repr

/-- Whether a dynamic value has concrete type `int64` (the type the
`idl.(int64)` assertion requires). -/
def FieldValue.isInt64 : FieldValue → Bool
  | .int64V _ => true
  | _ => false

/-- `FieldMap`: a string-keyed map of dynamic values, modelled as an
association list (first binding wins on lookup, as Go map keys are
unique). -/
abbrev FieldMap := List (String × FieldValue)

/-- Go map indexing `fm[k]` with its present/absent flag, as an `Option`. -/
def fmLookup (fm : FieldMap) (k : String) : Option FieldValue :=
  match fm with
  | [] => none
  | (k2, v) :: rest => if k2 = k then some v else fmLookup rest k

/-- Go `delete(fm, k)`: remove the binding of key `k`. -/
def fmDelete (fm : FieldMap) (k : String) : FieldMap :=
  match fm with
  | [] => []
  | (k2, v) :: rest =>
    if k2 = k then fmDelete rest k else (k2, v) :: fmDelete rest k

/-- One arm of `RemovePKIfZero`: look `k` up; a present non-`int64` value
makes the `.(int64)` type assertion panic (`none`); a present zero deletes
the key; otherwise the map is unchanged. -/
def pkStep (fm : FieldMap) (k : String) : Option FieldMap :=
  match fmLookup fm k with
  | some (.int64V n) => if n = 0 then some (fmDelete fm k) else some fm
  | some _ => none
  | none => some fm

/-- `FieldMap.RemovePKIfZero`: the `"id"` arm then the `"ID"` arm; `none`
models a panic from a failed `.(int64)` assertion. -/
def FieldMap.removePKIfZero (fm : FieldMap) : Option FieldMap :=
  (pkStep fm "id").bind (fun fm2 => pkStep fm2 "ID")

end Models

/-! #### `RecordIDWithName` and its JSON encoding (`encoding/json`) -/

/-- JSON documents (at the value level; numeric payloads carried as
integers, which covers every number these operations produce). -/
inductive Json where
  | num (n : Int)
  | str (s : String)
  | jbool (b : Bool)
  | jnull
  | arr (elems : List Json)
  | obj (fields : List (String × Json))

/-- Dynamic Go values (`interface{}`), as produced by `encoding/json`
decoding — JSON numbers decode as `float64` — plus `int64`, a dynamic type
Go values can have but JSON decoding never produces. -/
inductive GoVal where
  | floatV (n : Int)
  | strV (s : String)
  | boolV (b : Bool)
  | nilV
  | arrV (l : List GoVal)
  | mapV (l : List (String × GoVal))
  | int64V (n : Int)

/-- `encoding/json` decoding of a JSON value into `interface{}`. -/
def jsonToGoVal : Json → GoVal
  | .num n => .floatV n
  | .str s => .strV s
  | .jbool b => .boolV b
  | .jnull => .nilV
  | .arr l => .arrV (l.attach.map (fun x => jsonToGoVal x.1))
  | .obj l => .mapV (l.attach.map (fun x => (x.1.1, jsonToGoVal x.1.2)))
decreasing_by
  · have h := List.sizeOf_lt_of_mem x.2
    simp only [Json.arr.sizeOf_spec]
    omega
  · obtain ⟨⟨s, j⟩, hmem⟩ := x
    have h := List.sizeOf_lt_of_mem hmem
    simp only [Json.obj.sizeOf_spec, Prod.mk.sizeOf_spec] at *
    omega

/-- `json.Unmarshal(data, &arr)` for `arr [2]interface{}`: a JSON array
fills the Go array, discarding extra elements and zero-filling (with nil)
missing ones; JSON `null` is a no-op that leaves the zero values; any
other document is an unmarshal type error. -/
def decodeArr2 (j : Json) : Except String (GoVal × GoVal) :=
  match j with
  | .arr l =>
    .ok ((l.get? 0).elim GoVal.nilV jsonToGoVal, (l.get? 1).elim GoVal.nilV jsonToGoVal)
  | .jnull => .ok (.nilV, .nilV)
  | _ => .error "json: cannot unmarshal value into Go value of type [2]interface \x7b\x7d"

namespace Models

/-- `RecordIDWithName`: an `int64` ID and a display name. -/
structure RecordIDWithName where
  id : Int
  name : String
deriving DecidableEq, Repr

/-- `RecordIDWithName.MarshalJSON`: `json.Marshal` of the 2-element array
`[ID, Name]`. -/
def RecordIDWithName.marshalJSON (rf : RecordIDWithName) : Json :=
  .arr [.num rf.id, .str rf.name]

/-- The three ways `RecordIDWithName.UnmarshalJSON` can end: a decoded
value, a returned error, or a panic from a failed type assertion. -/
inductive UnmarshalOutcome where
  | ok (r : RecordIDWithName)
  | err (e : String)
  | panicked
deriving DecidableEq, Repr

/-- `RecordIDWithName.UnmarshalJSON`: `json.Unmarshal` into
`[2]interface{}`, then the unchecked assertions `arr[0].(int64)` and
`arr[1].(string)` (which panic when the dynamic type differs). -/
def RecordIDWithName.unmarshalJSON (j : Json) : UnmarshalOutcome :=
  match decodeArr2 j with
  | .error e => .err e
  | .ok (a, b) =>
    match a with
    | .int64V n =>
      match b with
      | .strV s => .ok ⟨n, s⟩
      | _ => .panicked
    | _ => .panicked

/-- Whether an unmarshal ended in a decoded value. -/
def UnmarshalOutcome.isOk : UnmarshalOutcome → Bool
  | .ok _ => true
  | _ => false

end Models

/-- The JSON round-trip check for a dates-package `Date`: decode the
encoded bytes and compare with `Equal`. -/
def Dates.dateJSONRoundTrip (d : Dates.Date) : Bool :=
  match Dates.Date.unmarshalJSON d.marshalJSON with
  | .ok u => Dates.Date.equal u d
  | .error _ => false

/-- The JSON round-trip check for a dates-package `DateTime`. -/
def Dates.dateTimeJSONRoundTrip (d : Dates.DateTime) : Bool :=
  match Dates.DateTime.unmarshalJSON d.marshalJSON with
  | .ok u => Dates.DateTime.equal u d
  | .error _ => false

/-! ### Correctness of the civil-date conversion

The year-of-era formula `adjDays doe / 365` is validated by checking it on
the first and last day of each of the 400 March-based years of an era
(a finite check) and interpolating by monotonicity. -/


theorem adjDays_mono : Monotone adjDays :=
  monotone_nat_of_le_succ (fun d => by unfold adjDays; omega)

theorem yoeOfDoe_mono {a b : Nat} (h : a ≤ b) : yoeOfDoe a ≤ yoeOfDoe b :=
  Nat.div_le_div_right (adjDays_mono h)

set_option maxRecDepth 8000 in
theorem yoe_at_first : ∀ y : Nat, y < 400 → yoeOfDoe (eraDaysBefore y) = y := by
  decide

set_option maxRecDepth 8000 in
theorem yoe_at_last : ∀ y : Nat, y < 400 → yoeOfDoe (eraLastDay y) = y := by
  decide

/-- The last day of a March-based year precedes the first day of the next,
the era ends at day 146096, and each year's range is nonempty. -/
theorem eraLastDay_eq (y : Nat) (hy : y ≤ 399) :
    (y < 399 → eraLastDay y + 1 = eraDaysBefore (y + 1))
    ∧ (y = 399 → eraLastDay y = 146096)
    ∧ eraDaysBefore y ≤ eraLastDay y := by
  unfold eraLastDay eraDaysBefore
  split
  · omega
  · omega

/-- Every day of era falls inside the day range of some March-based year. -/
theorem era_cover (doe : Nat) (h : doe ≤ 146096) :
    ∃ y, y ≤ 399 ∧ eraDaysBefore y ≤ doe ∧ doe ≤ eraLastDay y := by
  induction doe with
  | zero =>
    exact ⟨0, by omega, by simp [eraDaysBefore], by decide⟩
  | succ d ih =>
    obtain ⟨y, hy, h1, h2⟩ := ih (by omega)
    by_cases hlast : d + 1 ≤ eraLastDay y
    · exact ⟨y, hy, by omega, hlast⟩
    · obtain ⟨hA, hB, _⟩ := eraLastDay_eq y hy
      have hy399 : y < 399 := by
        rcases Nat.lt_or_ge y 399 with h' | h'
        · exact h'
        · have h'' : y = 399 := by omega
          have := hB h''
          omega
      have hnext := (eraLastDay_eq (y + 1) (by omega)).2.2
      have hstep := hA hy399
      exact ⟨y + 1, by omega, by omega, by omega⟩

/-- The year-of-era formula finds the year whose day range contains `doe`. -/
theorem yoeOfDoe_eq {doe y : Nat} (hy : y ≤ 399)
    (h1 : eraDaysBefore y ≤ doe) (h2 : doe ≤ eraLastDay y) :
    yoeOfDoe doe = y := by
  have l1 := yoe_at_first y (by omega)
  have l2 := yoe_at_last y (by omega)
  have m1 := yoeOfDoe_mono h1
  have m2 := yoeOfDoe_mono h2
  omega

/-- Characterization of the year-of-era of any day of era. -/
theorem doe_year_decomp (doe : Nat) (h : doe ≤ 146096) :
    eraDaysBefore (yoeOfDoe doe) ≤ doe
    ∧ doe ≤ eraLastDay (yoeOfDoe doe)
    ∧ yoeOfDoe doe ≤ 399 := by
  obtain ⟨y, hy, h1, h2⟩ := era_cover doe h
  have heq := yoeOfDoe_eq hy h1 h2
  rw [heq]
  exact ⟨h1, h2, hy⟩

/-- The day of the March-based year is at most 365, and it is 365 only in a
366-day year (one whose last day is 365 days after its first). -/
theorem doyOfDoe_le (doe : Nat) (h : doe ≤ 146096) :
    doyOfDoe doe ≤ 365
    ∧ eraDaysBefore (yoeOfDoe doe) + doyOfDoe doe = doe
    ∧ (doyOfDoe doe = 365 →
        eraLastDay (yoeOfDoe doe) = eraDaysBefore (yoeOfDoe doe) + 365) := by
  obtain ⟨h1, h2, h3⟩ := doe_year_decomp doe h
  unfold doyOfDoe
  unfold eraLastDay at h2 ⊢
  unfold eraDaysBefore at h1 h2 ⊢
  split at h2
  · split
    · omega
    · omega
  · split
    · omega
    · omega

/-- The day-of-era split of a day number is exact. -/
theorem eraOfDay_decomp (z : Int) :
    z + 306 = 146097 * eraOfDay z + (doeOfDay z : Int) ∧ doeOfDay z ≤ 146096 := by
  unfold eraOfDay doeOfDay
  omega

/-- The shifted month is in `0..11` and starts no later than the day of
year. -/
theorem mpOfDoe_le (doe : Nat) (h : doe ≤ 146096) :
    mpOfDoe doe ≤ 11 ∧ (153 * mpOfDoe doe + 2) / 5 ≤ doyOfDoe doe := by
  obtain ⟨hdoyle, _, _⟩ := doyOfDoe_le doe h
  unfold mpOfDoe
  omega

/-- Flat evaluation of `daysFromCivil` (its let-bindings expanded). -/
theorem daysFromCivil_eval (y : Int) (m d : Nat) :
    daysFromCivil y m d
      = (if m ≤ 2 then y - 1 else y) / 400 * 146097
        + ((eraDaysBefore
              (((if m ≤ 2 then y - 1 else y)
                - (if m ≤ 2 then y - 1 else y) / 400 * 400).toNat)
            + ((153 * (if 2 < m then m - 3 else m + 9) + 2) / 5 + d - 1) : Nat)
          : Int)
        - 306 := rfl

/-- `daysFromCivil` reassembles era, year of era, and day of year. -/
theorem daysFromCivil_reassemble (era : Int) (yoe doy mp : Nat)
    (hyoe : yoe ≤ 399) (hmp : mp ≤ 11) (hms : (153 * mp + 2) / 5 ≤ doy) :
    daysFromCivil
      ((yoe : Int) + era * 400
        + (if (if mp < 10 then mp + 3 else mp - 9) ≤ 2 then 1 else 0))
      (if mp < 10 then mp + 3 else mp - 9)
      (doy - (153 * mp + 2) / 5 + 1)
      = era * 146097 + ((eraDaysBefore yoe + doy : Nat) : Int) - 306 := by
  rw [daysFromCivil_eval]
  unfold eraDaysBefore
  split_ifs <;> omega

/-- The civil-date conversion inverts the day-number conversion. -/
theorem daysFromCivil_civil (z : Int) :
    daysFromCivil (civilY z) (civilM z) (civilD z) = z := by
  obtain ⟨hzeq, hdoe⟩ := eraOfDay_decomp z
  obtain ⟨_, _, hYoe⟩ := doe_year_decomp (doeOfDay z) hdoe
  obtain ⟨_, hsum, _⟩ := doyOfDoe_le (doeOfDay z) hdoe
  obtain ⟨hmp, hms⟩ := mpOfDoe_le (doeOfDay z) hdoe
  unfold civilY civilD civilM
  rw [daysFromCivil_reassemble (eraOfDay z) (yoeOfDoe (doeOfDay z))
    (doyOfDoe (doeOfDay z)) (mpOfDoe (doeOfDay z)) hYoe hmp hms]
  omega

/-- If the day of year is 365 then the civil year containing its February
is a leap year. -/
theorem doy365_leap (z : Int) (h365 : doyOfDoe (doeOfDay z) = 365) :
    isLeap ((yoeOfDoe (doeOfDay z) : Int) + eraOfDay z * 400 + 1) = true := by
  obtain ⟨_, hdoe⟩ := eraOfDay_decomp z
  obtain ⟨_, _, hYoe⟩ := doe_year_decomp (doeOfDay z) hdoe
  obtain ⟨_, _, hleap⟩ := doyOfDoe_le (doeOfDay z) hdoe
  have hL := hleap h365
  unfold eraLastDay eraDaysBefore at hL
  simp only [isLeap, Bool.and_eq_true, beq_iff_eq, Bool.or_eq_true, bne_iff_ne]
  split at hL
  · omega
  · omega

/-- The civil month and day are a valid Gregorian calendar date of the
civil year. -/
theorem civil_bounds (z : Int) :
    1 ≤ civilM z ∧ civilM z ≤ 12 ∧ 1 ≤ civilD z
    ∧ civilD z ≤ daysInMonth (civilM z) (civilY z) := by
  obtain ⟨hzeq, hdoe⟩ := eraOfDay_decomp z
  obtain ⟨hdoyle, hsum, _⟩ := doyOfDoe_le (doeOfDay z) hdoe
  obtain ⟨hmp, hms⟩ := mpOfDoe_le (doeOfDay z) hdoe
  have hM : civilM z = if mpOfDoe (doeOfDay z) < 10
      then mpOfDoe (doeOfDay z) + 3 else mpOfDoe (doeOfDay z) - 9 := rfl
  have hD : civilD z
      = doyOfDoe (doeOfDay z) - (153 * mpOfDoe (doeOfDay z) + 2) / 5 + 1 := rfl
  have hMrange : 1 ≤ civilM z ∧ civilM z ≤ 12 := by
    rw [hM]; split_ifs <;> omega
  refine ⟨hMrange.1, hMrange.2, by rw [hD]; omega, ?_⟩
  have hmprel : 153 * mpOfDoe (doeOfDay z) ≤ 5 * doyOfDoe (doeOfDay z) + 2
      ∧ 5 * doyOfDoe (doeOfDay z) + 2 < 153 * (mpOfDoe (doeOfDay z) + 1) := by
    unfold mpOfDoe
    omega
  by_cases hfeb : civilM z = 2
  · -- February: `mp = 11`, and day 29 only occurs in a leap year.
    have hmp11 : mpOfDoe (doeOfDay z) = 11 := by
      rw [hM] at hfeb
      split_ifs at hfeb <;> omega
    have hY : civilY z = (yoeOfDoe (doeOfDay z) : Int) + eraOfDay z * 400 + 1 := by
      unfold civilY
      rw [if_pos (by rw [hfeb])]
    rw [hfeb, hY, hD, hmp11]
    unfold daysInMonth
    rw [if_pos rfl]
    by_cases h365 : doyOfDoe (doeOfDay z) = 365
    · rw [if_pos (doy365_leap z h365)]
      omega
    · split_ifs with hl
      · omega
      · -- not leap: show the day of year cannot be 365
        rw [hmp11] at hmprel
        omega
  · -- non-February months have fixed lengths depending only on the month.
    have hDle : civilD z ≤ (if civilM z = 4 ∨ civilM z = 6 ∨ civilM z = 9
        ∨ civilM z = 11 then 30 else 31) := by
      rw [hM] at hfeb ⊢
      rw [hD]
      split_ifs <;> omega
    unfold daysInMonth
    rw [if_neg hfeb]
    split_ifs at hDle ⊢ <;> omega

/-! ### Parsing inverts formatting (within the four-digit year range) -/

/-- Digit characters are digits and carry their value. -/
theorem digit_facts (k : Nat) (h : k ≤ 9) :
    isDigitC (digitChar k) = true ∧ digitVal (digitChar k) = k := by
  interval_cases k <;> exact ⟨by decide, by decide⟩

/-- `getYear4` reads back a four-digit zero-padded year. -/
theorem getYear4_digits (n : Nat) (h : n ≤ 9999) (rest : List Char) :
    getYear4 (digitChar (n / 1000) :: digitChar (n / 100 % 10)
      :: digitChar (n / 10 % 10) :: digitChar (n % 10) :: rest) = some (n, rest) := by
  obtain ⟨i1, v1⟩ := digit_facts (n / 1000) (by omega)
  obtain ⟨i2, v2⟩ := digit_facts (n / 100 % 10) (by omega)
  obtain ⟨i3, v3⟩ := digit_facts (n / 10 % 10) (by omega)
  obtain ⟨i4, v4⟩ := digit_facts (n % 10) (by omega)
  have hsum : n / 1000 * 1000 + n / 100 % 10 * 100 + n / 10 % 10 * 10 + n % 10 = n := by
    omega
  simp [getYear4, i1, i2, i3, i4, v1, v2, v3, v4, hsum]

/-- `getnum2` reads back a two-digit zero-padded number. -/
theorem getnum2_digits (n : Nat) (h : n ≤ 99) (rest : List Char) :
    getnum2 (digitChar (n / 10) :: digitChar (n % 10) :: rest) = some (n, rest) := by
  obtain ⟨i1, v1⟩ := digit_facts (n / 10) (by omega)
  obtain ⟨i2, v2⟩ := digit_facts (n % 10) (by omega)
  have hsum : n / 10 * 10 + n % 10 = n := by omega
  simp [getnum2, i1, i2, v1, v2, hsum]

/-- `getnum` in flexible mode also reads back a two-digit number. -/
theorem getnum1or2_digits (n : Nat) (h : n ≤ 99) (rest : List Char) :
    getnum1or2 (digitChar (n / 10) :: digitChar (n % 10) :: rest) = some (n, rest) := by
  obtain ⟨i1, v1⟩ := digit_facts (n / 10) (by omega)
  obtain ⟨i2, v2⟩ := digit_facts (n % 10) (by omega)
  have hsum : n / 10 * 10 + n % 10 = n := by omega
  simp [getnum1or2, i1, i2, v1, v2, hsum]

/-- Matching an expected literal character consumes it. -/
theorem expectChar_cons (c : Char) (rest : List Char) :
    expectChar c (c :: rest) = some rest := by
  simp [expectChar]

/-- `parseYMD` reads back a rendered `YYYY-MM-DD` prefix. -/
theorem parseYMD_digits (y m d : Nat) (hy : y ≤ 9999) (hm : m ≤ 99) (hd : d ≤ 99)
    (rest : List Char) :
    parseYMD (digitChar (y / 1000) :: digitChar (y / 100 % 10)
      :: digitChar (y / 10 % 10) :: digitChar (y % 10) :: '-'
      :: digitChar (m / 10) :: digitChar (m % 10) :: '-'
      :: digitChar (d / 10) :: digitChar (d % 10) :: rest)
      = some (y, m, d, rest) := by
  unfold parseYMD
  rw [getYear4_digits y hy]
  simp [expectChar_cons, getnum2_digits m hm, getnum2_digits d hd]

/-- `parseClock` reads back a rendered `HH:MM:SS` prefix. -/
theorem parseClock_digits (hh mi ss : Nat) (hh99 : hh ≤ 99) (mi99 : mi ≤ 99)
    (ss99 : ss ≤ 99) (rest : List Char) :
    parseClock (digitChar (hh / 10) :: digitChar (hh % 10) :: ':'
      :: digitChar (mi / 10) :: digitChar (mi % 10) :: ':'
      :: digitChar (ss / 10) :: digitChar (ss % 10) :: rest)
      = some (hh, mi, ss, rest) := by
  unfold parseClock
  rw [getnum1or2_digits hh hh99]
  simp [expectChar_cons, getnum2_digits mi mi99, getnum2_digits ss ss99]

/-- Upper bound on month lengths. -/
theorem daysInMonth_le (m : Nat) (y : Int) : daysInMonth m y ≤ 31 := by
  unfold daysInMonth
  split_ifs <;> omega

/-- The time of day is under a day. -/
theorem todSec_lt (t : GoTime) : t.todSec < 86400 := by
  unfold GoTime.todSec
  omega

/-- Day number and time of day reassemble the raw seconds. -/
theorem sec_decomp (t : GoTime) :
    t.dayNumber * 86400 + (t.todSec : Int) = t.sec := by
  unfold GoTime.dayNumber GoTime.todSec
  omega

/-- The rendered date as an explicit character list, for years 0..9999. -/
theorem formatDateChars_eq (t : GoTime) (h0 : 0 ≤ civilY t.dayNumber)
    (h1 : civilY t.dayNumber ≤ 9999) :
    formatDateChars t
      = digitChar ((civilY t.dayNumber).toNat / 1000)
        :: digitChar ((civilY t.dayNumber).toNat / 100 % 10)
        :: digitChar ((civilY t.dayNumber).toNat / 10 % 10)
        :: digitChar ((civilY t.dayNumber).toNat % 10)
        :: '-' :: digitChar (civilM t.dayNumber / 10)
        :: digitChar (civilM t.dayNumber % 10)
        :: '-' :: digitChar (civilD t.dayNumber / 10)
        :: digitChar (civilD t.dayNumber % 10) :: [] := by
  unfold formatDateChars yearChars pad2
  rw [if_neg (by omega), if_pos (by omega)]
  simp

/-- Go's date parser inverts Go's date formatter, up to midnight, for
years 0..9999. -/
theorem parseDateLayout_format (t : GoTime) (h0 : 0 ≤ civilY t.dayNumber)
    (h1 : civilY t.dayNumber ≤ 9999) :
    parseDateLayout (formatDateStr t) = some ⟨t.dayNumber * 86400, 0⟩ := by
  obtain ⟨hm1, hm2, hd1, hd2⟩ := civil_bounds t.dayNumber
  have h31 := daysInMonth_le (civilM t.dayNumber) (civilY t.dayNumber)
  have hyo : ((civilY t.dayNumber).toNat : Int) = civilY t.dayNumber :=
    Int.toNat_of_nonneg h0
  have hval : validYMD (civilY t.dayNumber).toNat (civilM t.dayNumber)
      (civilD t.dayNumber) = true := by
    unfold validYMD
    rw [hyo]
    simp only [Bool.and_eq_true, decide_eq_true_eq]
    exact ⟨⟨⟨hm1, hm2⟩, hd1⟩, hd2⟩
  unfold parseDateLayout formatDateStr
  rw [show (String.mk (formatDateChars t)).data = formatDateChars t from rfl]
  rw [formatDateChars_eq t h0 h1]
  rw [parseYMD_digits _ _ _ (by omega) (by omega) (by omega)]
  simp only [hval, if_true]
  unfold mkCivil
  rw [hyo, daysFromCivil_civil]
  simp

/-- The rendered date-time as an explicit character list. -/
theorem formatDateTimeChars_eq (t : GoTime) (h0 : 0 ≤ civilY t.dayNumber)
    (h1 : civilY t.dayNumber ≤ 9999) :
    formatDateTimeChars t
      = digitChar ((civilY t.dayNumber).toNat / 1000)
        :: digitChar ((civilY t.dayNumber).toNat / 100 % 10)
        :: digitChar ((civilY t.dayNumber).toNat / 10 % 10)
        :: digitChar ((civilY t.dayNumber).toNat % 10)
        :: '-' :: digitChar (civilM t.dayNumber / 10)
        :: digitChar (civilM t.dayNumber % 10)
        :: '-' :: digitChar (civilD t.dayNumber / 10)
        :: digitChar (civilD t.dayNumber % 10)
        :: ' ' :: digitChar (t.todSec / 3600 / 10)
        :: digitChar (t.todSec / 3600 % 10)
        :: ':' :: digitChar (t.todSec % 3600 / 60 / 10)
        :: digitChar (t.todSec % 3600 / 60 % 10)
        :: ':' :: digitChar (t.todSec % 60 / 10)
        :: digitChar (t.todSec % 60 % 10) :: [] := by
  unfold formatDateTimeChars clockChars pad2
  rw [formatDateChars_eq t h0 h1]
  simp

/-- Go's date-time parser inverts Go's date-time formatter, up to
sub-second truncation, for years 0..9999. -/
theorem parseDateTimeLayout_format (t : GoTime) (h0 : 0 ≤ civilY t.dayNumber)
    (h1 : civilY t.dayNumber ≤ 9999) :
    parseDateTimeLayout (formatDateTimeStr t) = some ⟨t.sec, 0⟩ := by
  obtain ⟨hm1, hm2, hd1, hd2⟩ := civil_bounds t.dayNumber
  have h31 := daysInMonth_le (civilM t.dayNumber) (civilY t.dayNumber)
  have htod := todSec_lt t
  have hsec := sec_decomp t
  have hyo : ((civilY t.dayNumber).toNat : Int) = civilY t.dayNumber :=
    Int.toNat_of_nonneg h0
  have hval : validYMD (civilY t.dayNumber).toNat (civilM t.dayNumber)
      (civilD t.dayNumber) = true := by
    unfold validYMD
    rw [hyo]
    simp only [Bool.and_eq_true, decide_eq_true_eq]
    exact ⟨⟨⟨hm1, hm2⟩, hd1⟩, hd2⟩
  unfold parseDateTimeLayout formatDateTimeStr
  rw [show (String.mk (formatDateTimeChars t)).data = formatDateTimeChars t from rfl]
  rw [formatDateTimeChars_eq t h0 h1]
  rw [parseYMD_digits _ _ _ (by omega) (by omega) (by omega)]
  simp only [expectChar_cons]
  rw [parseClock_digits _ _ _ (by omega) (by omega) (by omega)]
  have hb : (validYMD (civilY t.dayNumber).toNat (civilM t.dayNumber)
      (civilD t.dayNumber)
      && decide (t.todSec / 3600 ≤ 23) && decide (t.todSec % 3600 / 60 ≤ 59)
      && decide (t.todSec % 60 ≤ 59)) = true := by
    rw [hval]
    simp only [Bool.true_and, Bool.and_eq_true, decide_eq_true_eq]
    omega
  simp only [hb, if_true]
  unfold mkCivil
  rw [hyo, daysFromCivil_civil]
  simp only [Option.some.injEq, GoTime.mk.injEq]
  refine ⟨by omega, trivial⟩

/-- A quoted JSON string is neither `false` nor `null`. -/
theorem quoted_ne_sentinels (l : List Char) :
    String.mk ('"' :: l ++ ['"']) ≠ "false"
    ∧ String.mk ('"' :: l ++ ['"']) ≠ "null" := by
  constructor <;> simp [String.ext_iff]

/-- Stripping the quotes the marshaller added. -/
theorem unquote_quoted (l : List Char) :
    unquote ('"' :: l ++ ['"']) = some l := by
  simp [unquote, List.getLast?_concat, List.dropLast_concat]

/-- `Date.MarshalJSON` on a non-zero date. -/
theorem date_marshal_nonzero (d : Dates.Date) (h : d.isZero = false) :
    d.marshalJSON = String.mk ('"' :: formatDateChars d.time ++ ['"']) := by
  unfold Dates.Date.marshalJSON
  rw [h]
  rfl

/-- `DateTime.MarshalJSON` on a non-zero date-time. -/
theorem dateTime_marshal_nonzero (d : Dates.DateTime) (h : d.isZero = false) :
    d.marshalJSON = String.mk ('"' :: formatDateTimeChars d.time ++ ['"']) := by
  unfold Dates.DateTime.marshalJSON
  rw [h]
  rfl

/-- `Date.UnmarshalJSON` on a quoted string parses its contents. -/
theorem date_unmarshal_quoted (l : List Char) :
    Dates.Date.unmarshalJSON (String.mk ('"' :: l ++ ['"']))
      = match Dates.ParseDateWithLayout Dates.DefaultServerDateFormat
          (String.mk l) with
        | (val, none) => .ok val
        | (_, some e) => .error e := by
  obtain ⟨hf, hn⟩ := quoted_ne_sentinels l
  unfold Dates.Date.unmarshalJSON
  rw [if_neg (by
    simp only [Bool.or_eq_true, decide_eq_true_eq, not_or]
    exact ⟨hf, hn⟩)]
  rw [show (String.mk ('"' :: l ++ ['"'])).data = '"' :: l ++ ['"'] from rfl]
  rw [unquote_quoted]

/-- `DateTime.UnmarshalJSON` on a quoted string parses its contents. -/
theorem dateTime_unmarshal_quoted (l : List Char) :
    Dates.DateTime.unmarshalJSON (String.mk ('"' :: l ++ ['"']))
      = match Dates.ParseDateTimeWithLayout Dates.DefaultServerDateTimeFormat
          (String.mk l) with
        | (val, none) => .ok val
        | (_, some e) => .error e := by
  obtain ⟨hf, hn⟩ := quoted_ne_sentinels l
  unfold Dates.DateTime.unmarshalJSON
  rw [if_neg (by
    simp only [Bool.or_eq_true, decide_eq_true_eq, not_or]
    exact ⟨hn, hf⟩)]
  rw [show (String.mk ('"' :: l ++ ['"'])).data = '"' :: l ++ ['"'] from rfl]
  rw [unquote_quoted]

/-- Dates with equal JSON forms are `Equal`. -/
theorem date_equal_of_marshal_eq (a b : Dates.Date)
    (h : a.marshalJSON = b.marshalJSON) : Dates.Date.equal a b = true := by
  unfold Dates.Date.equal Dates.Date.string
  rw [h]
  exact beq_self_eq_true _

/-- DateTimes with equal JSON forms are `Equal`. -/
theorem dateTime_equal_of_marshal_eq (a b : Dates.DateTime)
    (h : a.marshalJSON = b.marshalJSON) : Dates.DateTime.equal a b = true := by
  unfold Dates.DateTime.equal Dates.DateTime.string
  rw [h]
  exact beq_self_eq_true _

/-- `formatDateChars` depends only on the day number. -/
theorem formatDateChars_congr (a b : GoTime) (h : a.dayNumber = b.dayNumber) :
    formatDateChars a = formatDateChars b := by
  unfold formatDateChars
  rw [h]

/-- `formatDateTimeChars` depends only on the raw seconds. -/
theorem formatDateTimeChars_congr (a b : GoTime) (h : a.sec = b.sec) :
    formatDateTimeChars a = formatDateTimeChars b := by
  unfold formatDateTimeChars formatDateChars clockChars GoTime.dayNumber
    GoTime.todSec
  rw [h]

/-! ## Claim theorems -/

/-- C1, counterexample: the dates-package `Date` at 0001-01-01 10:00:00
(sub-day noise only) has the same day-precision formatted string as the
zero instant, yet `IsZero` — a raw-instant comparison — reports `false`,
so it is not detected as null, contradicting the claimed iff and its "in
particular" consequence. -/
theorem null_detection_isZero_cex :
    formatDateStr (⟨36000, 0⟩ : GoTime) = formatDateStr timeZero
    ∧ Dates.Date.isZero ⟨⟨36000, 0⟩⟩ = false := by
  constructor
  · decide
  · decide

/-- C1, amended: the models-package `IsNull` of both `Date` and `DateTime`
is exactly the comparison of the value's formatted string at its type's
precision against the zero instant's formatted string, while the
dates-package `Date.IsZero` (the promoted `time.Time.IsZero`) is exactly
the raw-instant comparison against the zero instant, so sub-day noise on
the sentinel day is not detected as null there. -/
theorem null_detection_amended :
    (∀ d : Models.Date,
      d.isNull = (formatDateStr d.time == formatDateStr timeZero))
    ∧ (∀ d : Models.DateTime,
      d.isNull = (formatDateTimeStr d.time == formatDateTimeStr timeZero))
    ∧ (∀ d : Dates.Date, d.isZero = (d.time.sec == 0 && d.time.nsec == 0)) := by
  have h1 : formatDateStr timeZero = "0001-01-01" := by decide
  have h2 : formatDateTimeStr timeZero = "0001-01-01 00:00:00" := by decide
  refine ⟨fun d => ?_, fun d => ?_, fun d => rfl⟩
  · unfold Models.Date.isNull
    rw [h1]
  · unfold Models.DateTime.isNull
    rw [h2]

/-- C5, counterexample: a `Date` carrying the sub-day instant
2017-08-01 10:02:57 promotes via `ToDateTime` to a `DateTime` on the same
calendar day whose time of day is 10:02:57, not 00:00:00. -/
theorem toDateTime_midnight_cex :
    (Dates.Date.toDateTime ⟨mkCivil 2017 8 1 10 2 57⟩).time.todSec = 36177
    ∧ (36177 : Nat) ≠ 0
    ∧ (Dates.Date.toDateTime ⟨mkCivil 2017 8 1 10 2 57⟩).time.dayNumber
        = (mkCivil 2017 8 1 10 2 57).dayNumber := by
  refine ⟨by decide, by decide, rfl⟩

/-- C5, amended: `ToDateTime` simply wraps the same underlying instant, so
the result lies on the same calendar day with the same time of day as the
`Date`'s underlying instant (which is midnight only when that instant is
at midnight). -/
theorem toDateTime_amended (d : Dates.Date) :
    d.toDateTime.time = d.time
    ∧ d.toDateTime.time.dayNumber = d.time.dayNumber
    ∧ d.toDateTime.time.todSec = d.time.todSec :=
  ⟨rfl, rfl, rfl⟩

/-- C6, counterexample: the legacy models-package `Date.Value` on a null
value returns the string `"0001-01-01"` — the zero instant's formatted
literal — not the zero instant of the underlying time representation (a
`time.Time` or `Date` value), so the claim's "returns the zero instant"
fails for the models-package variants. -/
theorem value_zero_instant_cex :
    Models.Date.value ⟨timeZero⟩ = .stringV "0001-01-01"
    ∧ Models.DateTime.value ⟨timeZero⟩ = .stringV "0001-01-01 00:00:00"
    ∧ DriverValue.stringV "0001-01-01" ≠ .timeV timeZero
    ∧ DriverValue.stringV "0001-01-01" ≠ .modelsDateV timeZero := by
  refine ⟨by decide, by decide, by decide, by decide⟩

/-- C6, amended: no `Value()` variant ever returns a storage NULL; the
dates-package `Date.Value` returns the zero `time.Time` instant on a zero
value and the embedded instant otherwise, while the legacy models-package
variants return the zero instant's canonical formatted string on a null
value (`"0001-01-01"` / `"0001-01-01 00:00:00"`) and a concrete temporal
value (the `Date` itself, resp. the formatted second-precision string)
otherwise. -/
theorem value_never_null_amended :
    formatDateStr timeZero = "0001-01-01"
    ∧ formatDateTimeStr timeZero = "0001-01-01 00:00:00"
    ∧ (∀ d : Dates.Date, d.isZero = true → d.value = .timeV timeZero)
    ∧ (∀ d : Dates.Date, d.isZero = false → d.value = .timeV d.time)
    ∧ (∀ d : Models.Date, d.isNull = true → d.value = .stringV "0001-01-01")
    ∧ (∀ d : Models.Date, d.isNull = false → d.value = .modelsDateV d.time)
    ∧ (∀ d : Models.DateTime, d.isNull = true →
        d.value = .stringV "0001-01-01 00:00:00")
    ∧ (∀ d : Models.DateTime, d.isNull = false →
        d.value = .stringV (formatDateTimeStr d.time))
    ∧ (∀ d : Dates.Date, d.value ≠ .nullV)
    ∧ (∀ d : Models.Date, d.value ≠ .nullV)
    ∧ (∀ d : Models.DateTime, d.value ≠ .nullV) := by
  refine ⟨by decide, by decide,
    fun d h => by simp [Dates.Date.value, h],
    fun d h => by simp [Dates.Date.value, h],
    fun d h => by simp [Models.Date.value, h],
    fun d h => by simp [Models.Date.value, h],
    fun d h => by simp [Models.DateTime.value, h],
    fun d h => by simp [Models.DateTime.value, h],
    fun d => by unfold Dates.Date.value; split <;> simp,
    fun d => by unfold Models.Date.value; split <;> simp,
    fun d => by unfold Models.DateTime.value; split <;> simp⟩

/-- C6, witness: the amended claim evaluated on the zero dates-package
`Date` and the zero models-package values. -/
theorem value_never_null_amended_witness :
    Dates.Date.value ⟨timeZero⟩ = .timeV timeZero
    ∧ Models.Date.value ⟨timeZero⟩ = .stringV "0001-01-01"
    ∧ Models.DateTime.value ⟨timeZero⟩ = .stringV "0001-01-01 00:00:00" :=
  ⟨value_never_null_amended.2.2.1 ⟨timeZero⟩ (by decide),
   value_never_null_amended.2.2.2.2.1 ⟨timeZero⟩ (by decide),
   value_never_null_amended.2.2.2.2.2.2.1 ⟨timeZero⟩ (by decide)⟩

/-- C7, counterexample: `ParseDateWithLayout(DefaultServerDateFormat, "")`
does not return a nil error: Go's `time.Parse` fails on the empty string,
so the zero `Date` comes back together with a parse error. -/
theorem parse_empty_nil_error_cex :
    (Dates.ParseDateWithLayout Dates.DefaultServerDateFormat "").2 ≠ none := by
  decide

/-- C7, amended: parsing the empty string yields the zero `Date` together
with a (non-nil) parse error; the empty-string-as-explicitly-absent
treatment — zero value, no error — lives in `Date.Scan`. -/
theorem parse_empty_string_amended :
    (Dates.ParseDateWithLayout Dates.DefaultServerDateFormat "").1 = ⟨timeZero⟩
    ∧ (∃ e, (Dates.ParseDateWithLayout Dates.DefaultServerDateFormat "").2 = some e)
    ∧ (∀ d : Dates.Date, d.scan (.stringV "") = (⟨timeZero⟩, none)) := by
  refine ⟨by decide, ⟨_, rfl⟩, fun d => rfl⟩

/-- C8: `ParseDate` returns the parsed date exactly when
`ParseDateWithLayout` under the canonical layout succeeds and panics
(modelled as `none`) exactly when it fails; in particular
`ParseDate "2017-08-01"` succeeds and `ParseDate "2017-08-01 10:02:57"`
panics, the latter being a date-time string handed to the date-only
parser. -/
theorem parseDate_contract :
    (∀ v d, Dates.ParseDateWithLayout Dates.DefaultServerDateFormat v = (d, none)
      → Dates.ParseDate v = some d)
    ∧ (∀ v d e, Dates.ParseDateWithLayout Dates.DefaultServerDateFormat v = (d, some e)
      → Dates.ParseDate v = none)
    ∧ Dates.ParseDate "2017-08-01" = some ⟨mkCivil 2017 8 1 0 0 0⟩
    ∧ Dates.ParseDate "2017-08-01 10:02:57" = none := by
  refine ⟨?_, ?_, by decide, by decide⟩
  · intro v d h
    unfold Dates.ParseDate
    rw [h]
  · intro v d e h
    unfold Dates.ParseDate
    rw [h]

/-- C8, witness: the contract evaluated at the two concrete inputs. -/
theorem parseDate_contract_witness :
    Dates.ParseDate "2017-08-01" = some ⟨mkCivil 2017 8 1 0 0 0⟩ :=
  parseDate_contract.1 "2017-08-01" ⟨mkCivil 2017 8 1 0 0 0⟩ (by decide)

/-- `goTimeParse` at the date layout dispatches to `parseDateLayout`. -/
theorem goTimeParse_date (s : String) :
    goTimeParse "2006-01-02" s
      = match parseDateLayout s with
        | some t => (t, none)
        | none => (timeZero, some ("cannot parse " ++ s ++ " as 2006-01-02")) := by
  unfold goTimeParse
  rw [if_pos rfl]

/-- `goTimeParse` at the date-time layout dispatches to
`parseDateTimeLayout`. -/
theorem goTimeParse_datetime (s : String) :
    goTimeParse "2006-01-02 15:04:05" s
      = match parseDateTimeLayout s with
        | some t => (t, none)
        | none =>
          (timeZero, some ("cannot parse " ++ s ++ " as 2006-01-02 15:04:05")) := by
  unfold goTimeParse
  rw [if_neg (by decide), if_pos rfl]

/-- `ParseDateWithLayout` under the canonical date layout, on success. -/
theorem parseDateWithLayout_date_some (s : String) (t : GoTime)
    (h : parseDateLayout s = some t) :
    Dates.ParseDateWithLayout Dates.DefaultServerDateFormat s = (⟨t⟩, none) := by
  unfold Dates.ParseDateWithLayout Dates.DefaultServerDateFormat
  rw [goTimeParse_date, h]

/-- `ParseDateWithLayout` under the canonical date layout, on failure. -/
theorem parseDateWithLayout_date_none (s : String)
    (h : parseDateLayout s = none) :
    Dates.ParseDateWithLayout Dates.DefaultServerDateFormat s
      = (⟨timeZero⟩, some ("cannot parse " ++ s ++ " as 2006-01-02")) := by
  unfold Dates.ParseDateWithLayout Dates.DefaultServerDateFormat
  rw [goTimeParse_date, h]

/-- `ParseDateWithLayout` under the date-time layout, on success. -/
theorem parseDateWithLayout_datetime_some (s : String) (t : GoTime)
    (h : parseDateTimeLayout s = some t) :
    Dates.ParseDateWithLayout Dates.DefaultServerDateTimeFormat s = (⟨t⟩, none) := by
  unfold Dates.ParseDateWithLayout Dates.DefaultServerDateTimeFormat
  rw [goTimeParse_datetime, h]

/-- `ParseDateWithLayout` under the date-time layout, on failure. -/
theorem parseDateWithLayout_datetime_none (s : String)
    (h : parseDateTimeLayout s = none) :
    Dates.ParseDateWithLayout Dates.DefaultServerDateTimeFormat s
      = (⟨timeZero⟩, some ("cannot parse " ++ s ++ " as 2006-01-02 15:04:05")) := by
  unfold Dates.ParseDateWithLayout Dates.DefaultServerDateTimeFormat
  rw [goTimeParse_datetime, h]

/-- `ParseDateTimeWithLayout` under the date-time layout, on success. -/
theorem parseDateTimeWithLayout_some (s : String) (t : GoTime)
    (h : parseDateTimeLayout s = some t) :
    Dates.ParseDateTimeWithLayout Dates.DefaultServerDateTimeFormat s
      = (⟨t⟩, none) := by
  unfold Dates.ParseDateTimeWithLayout Dates.DefaultServerDateTimeFormat
  rw [goTimeParse_datetime, h]

/-- C4: `Date.Scan` accepts exactly three source shapes — a `time.Time`
copied through with no error, the empty string producing the zero date
with no error, and a non-empty string parsed first under the canonical
date layout with a fallback to the date-time layout, an error being
returned only when both parses fail — and fails with a type-mismatch
error naming the concrete type on every other source, never panicking
(the model is a total function). -/
theorem date_scan_contract (d : Dates.Date) (src : SqlValue) :
    (∀ t, src = .timeV t → d.scan src = (⟨t⟩, none))
    ∧ (src = .stringV "" → d.scan src = (⟨timeZero⟩, none))
    ∧ (∀ s, src = .stringV s → s ≠ "" →
        (∀ t, parseDateLayout s = some t → d.scan src = (⟨t⟩, none))
        ∧ (parseDateLayout s = none → ∀ t, parseDateTimeLayout s = some t →
            d.scan src = (⟨t⟩, none))
        ∧ (parseDateLayout s = none → parseDateTimeLayout s = none →
            ∃ e, d.scan src = (⟨timeZero⟩, some e)))
    ∧ ((∀ t, src ≠ .timeV t) → (∀ s, src ≠ .stringV s) →
        d.scan src = (d, some ("date data is not time.Time but " ++ src.typeName))) := by
  refine ⟨?_, ?_, ?_, ?_⟩
  · intro t h
    subst h
    rfl
  · intro h
    subst h
    rfl
  · intro s h hne
    subst h
    show _ ∧ _ ∧ _
    simp only [Dates.Date.scan]
    rw [if_neg hne]
    refine ⟨?_, ?_, ?_⟩
    · intro t hp
      rw [parseDateWithLayout_date_some s t hp]
    · intro hp t hq
      rw [parseDateWithLayout_date_none s hp, parseDateWithLayout_datetime_some s t hq]
    · intro hp hq
      rw [parseDateWithLayout_date_none s hp, parseDateWithLayout_datetime_none s hq]
      exact ⟨_, rfl⟩
  · intro h1 h2
    cases src with
    | timeV t => exact absurd rfl (h1 t)
    | stringV s => exact absurd rfl (h2 s)
    | int64V n => rfl
    | float64V q => rfl
    | boolV b => rfl
    | bytesV bs => rfl
    | stringSliceV l => rfl
    | nilV => rfl

/-- C4, witness: the contract evaluated on a `time.Time` source, a
date-time-formatted string scanned into the date type, and a
slice-of-strings source. -/
theorem date_scan_contract_witness :
    Dates.Date.scan ⟨timeZero⟩ (.timeV (mkCivil 2017 8 1 0 0 0))
      = (⟨mkCivil 2017 8 1 0 0 0⟩, none)
    ∧ Dates.Date.scan ⟨timeZero⟩ (.stringV "2017-08-01 10:02:57")
      = (⟨mkCivil 2017 8 1 10 2 57⟩, none)
    ∧ Dates.Date.scan ⟨timeZero⟩ (.stringSliceV ["foo", "bar"])
      = (⟨timeZero⟩, some "date data is not time.Time but []string") :=
  ⟨(date_scan_contract ⟨timeZero⟩ _).1 _ rfl,
   ((date_scan_contract ⟨timeZero⟩ _).2.2.1 "2017-08-01 10:02:57" rfl
      (by decide)).2.1 (by decide) _ (by decide),
   (date_scan_contract ⟨timeZero⟩ _).2.2.2
      (fun t h => SqlValue.noConfusion h) (fun s h => SqlValue.noConfusion h)⟩

/-- C9: two `Date` values on the calendar day 2017-08-01 whose underlying
instants differ below day precision (midnight vs 10:02:57) are `Equal`
(day-precision string comparison) while simultaneously strictly ordered by
`Greater`/`LowerEqual` (raw-instant subtraction), so equality and strict
ordering are not mutually exclusive. -/
theorem date_equal_greater_paradox :
    ∃ a b : Dates.Date,
      a.time.dayNumber = b.time.dayNumber
      ∧ a.time.todSec ≠ b.time.todSec
      ∧ Dates.Date.equal a b = true
      ∧ Dates.Date.greater b a = true
      ∧ Dates.Date.lowerEqual a b = true
      ∧ Dates.Date.lowerEqual b a = false := by
  refine ⟨⟨mkCivil 2017 8 1 0 0 0⟩, ⟨mkCivil 2017 8 1 10 2 57⟩,
    by decide, by decide, by decide, by decide, by decide, by decide⟩

/-- C2, counterexample: three non-null values fail the JSON round trip.
A `Date` at 0001-01-01 10:00:00 is non-null but marshals to
`"0001-01-01"`, which decodes to the zero date whose `String()` is the
sentinel `false`, so `Equal` fails; a `Date` at 10000-01-01 marshals to a
five-digit year the four-digit parser rejects, so decoding errors; and a
`DateTime` at 0001-01-01 00:00:00.5 is non-null but round-trips through
the zero value the same way the first does. -/
theorem json_roundtrip_cex :
    Dates.Date.isZero ⟨⟨36000, 0⟩⟩ = false
    ∧ Dates.dateJSONRoundTrip ⟨⟨36000, 0⟩⟩ = false
    ∧ Dates.Date.isZero ⟨mkCivil 10000 1 1 0 0 0⟩ = false
    ∧ Dates.dateJSONRoundTrip ⟨mkCivil 10000 1 1 0 0 0⟩ = false
    ∧ Dates.DateTime.isZero ⟨⟨0, 500000000⟩⟩ = false
    ∧ Dates.dateTimeJSONRoundTrip ⟨⟨0, 500000000⟩⟩ = false := by
  refine ⟨by decide, by decide, by decide, by decide, by decide, by decide⟩

/-- C2, amended: `unmarshalJSON(marshalJSON(v)).Equal(v)` holds for every
non-null Date/DateTime `v` whose formatted value is not the zero
sentinel's (calendar day not 0001-01-01 for `Date`; second-truncated
instant not 0001-01-01 00:00:00 for `DateTime`) and whose formatted year
has four digits (year in 0..9999). -/
theorem json_roundtrip_amended :
    (∀ t : GoTime, Dates.Date.isZero ⟨t⟩ = false → t.dayNumber ≠ 0 →
      0 ≤ civilY t.dayNumber → civilY t.dayNumber ≤ 9999 →
      Dates.dateJSONRoundTrip ⟨t⟩ = true)
    ∧ (∀ t : GoTime, Dates.DateTime.isZero ⟨t⟩ = false → t.sec ≠ 0 →
      0 ≤ civilY t.dayNumber → civilY t.dayNumber ≤ 9999 →
      Dates.dateTimeJSONRoundTrip ⟨t⟩ = true) := by
  constructor
  · intro t hnz hday h0 h1
    unfold Dates.dateJSONRoundTrip
    rw [date_marshal_nonzero ⟨t⟩ hnz]
    rw [date_unmarshal_quoted (formatDateChars t)]
    rw [parseDateWithLayout_date_some (String.mk (formatDateChars t))
      ⟨t.dayNumber * 86400, 0⟩ (parseDateLayout_format t h0 h1)]
    show Dates.Date.equal ⟨⟨t.dayNumber * 86400, 0⟩⟩ ⟨t⟩ = true
    apply date_equal_of_marshal_eq
    have hu : Dates.Date.isZero ⟨⟨t.dayNumber * 86400, 0⟩⟩ = false := by
      simp [Dates.Date.isZero, GoTime.isZero]
      omega
    rw [date_marshal_nonzero _ hu, date_marshal_nonzero _ hnz]
    rw [formatDateChars_congr (⟨t.dayNumber * 86400, 0⟩ : GoTime) t
      (by unfold GoTime.dayNumber; dsimp only; omega)]
  · intro t hnz hsec0 h0 h1
    unfold Dates.dateTimeJSONRoundTrip
    rw [dateTime_marshal_nonzero ⟨t⟩ hnz]
    rw [dateTime_unmarshal_quoted (formatDateTimeChars t)]
    rw [parseDateTimeWithLayout_some (String.mk (formatDateTimeChars t))
      ⟨t.sec, 0⟩ (parseDateTimeLayout_format t h0 h1)]
    show Dates.DateTime.equal ⟨⟨t.sec, 0⟩⟩ ⟨t⟩ = true
    apply dateTime_equal_of_marshal_eq
    have hu : Dates.DateTime.isZero ⟨⟨t.sec, 0⟩⟩ = false := by
      simp [Dates.DateTime.isZero, GoTime.isZero]
      exact hsec0
    rw [dateTime_marshal_nonzero _ hu, dateTime_marshal_nonzero _ hnz]
    rw [formatDateTimeChars_congr (⟨t.sec, 0⟩ : GoTime) t rfl]

/-- C2, witness: the amended round trip evaluated on 2017-08-01 (as a
`Date` at midnight and as a `DateTime` at 10:02:57). -/
theorem json_roundtrip_amended_witness :
    Dates.dateJSONRoundTrip ⟨mkCivil 2017 8 1 0 0 0⟩ = true
    ∧ Dates.dateTimeJSONRoundTrip ⟨mkCivil 2017 8 1 10 2 57⟩ = true :=
  ⟨json_roundtrip_amended.1 (mkCivil 2017 8 1 0 0 0) (by decide) (by decide)
      (by decide) (by decide),
   json_roundtrip_amended.2 (mkCivil 2017 8 1 10 2 57) (by decide) (by decide)
      (by decide) (by decide)⟩

/-- `encoding/json` decoding into `interface{}` never produces the dynamic
type `int64` (numbers become `float64`). -/
theorem jsonToGoVal_not_int64 (j : Json) (n : Int) :
    jsonToGoVal j ≠ GoVal.int64V n := by
  cases j <;> simp [jsonToGoVal]

/-- `RecordIDWithName.UnmarshalJSON` can never return a decoded value: on
non-array input the decode errors, and on array input `arr[0]` has dynamic
type `float64` or `nil`, so the `arr[0].(int64)` assertion panics. -/
theorem recordIDWithName_unmarshal_never_ok (j : Json) :
    (Models.RecordIDWithName.unmarshalJSON j).isOk = false := by
  unfold Models.RecordIDWithName.unmarshalJSON
  cases j with
  | arr l =>
    simp only [decodeArr2]
    rcases hl : l.get? 0 with _ | a
    · simp [Models.UnmarshalOutcome.isOk]
    · simp only [Option.elim]
      cases hv : jsonToGoVal a with
      | int64V n => exact absurd hv (jsonToGoVal_not_int64 a n)
      | floatV n => simp [Models.UnmarshalOutcome.isOk]
      | strV s => simp [Models.UnmarshalOutcome.isOk]
      | boolV b => simp [Models.UnmarshalOutcome.isOk]
      | nilV => simp [Models.UnmarshalOutcome.isOk]
      | arrV l2 => simp [Models.UnmarshalOutcome.isOk]
      | mapV l2 => simp [Models.UnmarshalOutcome.isOk]
  | num n => simp [decodeArr2, Models.UnmarshalOutcome.isOk]
  | str s => simp [decodeArr2, Models.UnmarshalOutcome.isOk]
  | jbool b => simp [decodeArr2, Models.UnmarshalOutcome.isOk]
  | jnull => simp [decodeArr2, Models.UnmarshalOutcome.isOk]
  | obj l => simp [decodeArr2, Models.UnmarshalOutcome.isOk]

/-- C3: `RecordIDWithName` encodes as the 2-element array `[id, name]`
(never an object), but decoding does not behave as claimed: arrays of
other lengths are not rejected (`json.Unmarshal` into `[2]interface{}`
truncates or nil-pads), and instead of returning a decode error the
method panics on every array — even the canonical `[1, "foo"]` — because
`json.Unmarshal` decodes numbers into `interface{}` as `float64`, so the
`arr[0].(int64)` assertion always fails; only non-array documents get a
returned decode error, and no input ever decodes successfully. -/
theorem recordIDWithName_json_behavior :
    (∀ r : Models.RecordIDWithName,
      r.marshalJSON = Json.arr [Json.num r.id, Json.str r.name])
    ∧ Models.RecordIDWithName.unmarshalJSON (Json.arr []) = .panicked
    ∧ Models.RecordIDWithName.unmarshalJSON
        (Json.arr [Json.num 1, Json.str "foo"]) = .panicked
    ∧ Models.RecordIDWithName.unmarshalJSON
        (Json.arr [Json.num 1, Json.str "a", Json.num 2]) = .panicked
    ∧ (∃ e, Models.RecordIDWithName.unmarshalJSON (Json.obj []) = .err e)
    ∧ (∀ j, (Models.RecordIDWithName.unmarshalJSON j).isOk = false) := by
  refine ⟨fun r => rfl, ?_, ?_, ?_, ⟨_, rfl⟩, recordIDWithName_unmarshal_never_ok⟩
  · simp [Models.RecordIDWithName.unmarshalJSON, decodeArr2]
  · simp [Models.RecordIDWithName.unmarshalJSON, decodeArr2, jsonToGoVal]
  · simp [Models.RecordIDWithName.unmarshalJSON, decodeArr2, jsonToGoVal]

/-- Looking a key up after deleting a (possibly different) key. -/
theorem fmLookup_fmDelete (fm : Models.FieldMap) (k q : String) :
    Models.fmLookup (Models.fmDelete fm k) q
      = if q = k then none else Models.fmLookup fm q := by
  induction fm with
  | nil => simp [Models.fmDelete, Models.fmLookup]
  | cons p rest ih =>
    obtain ⟨pk, pv⟩ := p
    simp only [Models.fmDelete, Models.fmLookup]
    by_cases h1 : pk = k
    · rw [if_pos h1, ih]
      by_cases h2 : q = k
      · simp [h2]
      · have h3 : ¬ pk = q := fun hh => h2 (by rw [← hh, h1])
        simp [h2, h3]
    · rw [if_neg h1]
      simp only [Models.fmLookup]
      by_cases h2 : pk = q
      · have h4 : ¬ q = k := fun hh => h1 (by rw [h2, hh])
        rw [if_pos h2, if_neg h4, if_pos h2]
      · rw [if_neg h2, ih]
        by_cases h4 : q = k
        · rw [if_pos h4, if_pos h4]
        · rw [if_neg h4, if_neg h4, if_neg h2]

/-- `pkStep` succeeds exactly when any value under the key is an `int64`. -/
theorem pkStep_isSome (fm : Models.FieldMap) (k : String) :
    (Models.pkStep fm k).isSome
      ↔ (∀ v, Models.fmLookup fm k = some v → v.isInt64 = true) := by
  rcases hl : Models.fmLookup fm k with _ | v
  · simp [Models.pkStep, hl]
  · cases v with
    | int64V n =>
      by_cases hn : n = 0 <;>
        simp [Models.pkStep, hl, hn, Models.FieldValue.isInt64]
    | intV n => simp [Models.pkStep, hl, Models.FieldValue.isInt64]
    | stringV s => simp [Models.pkStep, hl, Models.FieldValue.isInt64]
    | boolV b => simp [Models.pkStep, hl, Models.FieldValue.isInt64]
    | nilV => simp [Models.pkStep, hl, Models.FieldValue.isInt64]

/-- A successful `pkStep` either deleted a zero `int64` entry or left the
map untouched. -/
theorem pkStep_cases (fm : Models.FieldMap) (k : String) (fm2 : Models.FieldMap)
    (h : Models.pkStep fm k = some fm2) :
    (Models.fmLookup fm k = some (.int64V 0) ∧ fm2 = Models.fmDelete fm k)
    ∨ (Models.fmLookup fm k ≠ some (.int64V 0) ∧ fm2 = fm) := by
  rcases hl : Models.fmLookup fm k with _ | v
  · right
    simp only [Models.pkStep, hl] at h
    exact ⟨by simp [hl], (Option.some.inj h).symm⟩
  · cases v with
    | int64V n =>
      simp only [Models.pkStep, hl] at h
      by_cases hn : n = 0
      · subst hn
        rw [if_pos rfl] at h
        exact Or.inl ⟨rfl, (Option.some.inj h).symm⟩
      · rw [if_neg hn] at h
        exact Or.inr ⟨by simp [hn], (Option.some.inj h).symm⟩
    | intV n => simp [Models.pkStep, hl] at h
    | stringV s => simp [Models.pkStep, hl] at h
    | boolV b => simp [Models.pkStep, hl] at h
    | nilV => simp [Models.pkStep, hl] at h

/-- C10: `RemovePKIfZero` terminates normally iff every value present
under `"id"` or `"ID"` has dynamic type `int64` (any other type makes the
`.(int64)` assertion panic), and on normal termination it deletes exactly
the `int64` entries whose value is `0`, keeping nonzero `int64` entries in
place. -/
theorem removePKIfZero_contract (fm : Models.FieldMap) :
    ((Models.FieldMap.removePKIfZero fm).isSome
      ↔ ((∀ v, Models.fmLookup fm ("id") = some v → v.isInt64 = true)
         ∧ (∀ v, Models.fmLookup fm ("ID") = some v → v.isInt64 = true)))
    ∧ (∀ fm', Models.FieldMap.removePKIfZero fm = some fm' →
        (Models.fmLookup fm ("id") = some (.int64V 0) →
          Models.fmLookup fm' ("id") = none)
        ∧ (∀ n, ¬ n = 0 → Models.fmLookup fm ("id") = some (.int64V n) →
            Models.fmLookup fm' ("id") = some (.int64V n))
        ∧ (Models.fmLookup fm ("ID") = some (.int64V 0) →
          Models.fmLookup fm' ("ID") = none)
        ∧ (∀ n, ¬ n = 0 → Models.fmLookup fm ("ID") = some (.int64V n) →
            Models.fmLookup fm' ("ID") = some (.int64V n))) := by
  have hID_pres : ∀ fm2, Models.pkStep fm ("id") = some fm2 →
      Models.fmLookup fm2 ("ID") = Models.fmLookup fm ("ID") := by
    intro fm2 h2
    rcases pkStep_cases fm ("id") fm2 h2 with ⟨_, rfl⟩ | ⟨_, rfl⟩
    · rw [fmLookup_fmDelete, if_neg (by decide)]
    · rfl
  constructor
  · unfold Models.FieldMap.removePKIfZero
    rcases h1 : Models.pkStep fm ("id") with _ | fm2
    · have h1' := (pkStep_isSome fm ("id")).not.mp (by simp [h1])
      simp only [Option.bind]
      constructor
      · intro h
        cases h
      · intro ⟨ha, _⟩
        exact absurd ha h1'
    · have h2' := hID_pres fm2 h1
      simp only [h1, Option.bind]
      rw [pkStep_isSome, h2']
      constructor
      · intro h
        exact ⟨(pkStep_isSome fm ("id")).mp (by simp [h1]), h⟩
      · intro ⟨_, hb⟩
        exact hb
  · intro fm' hf
    unfold Models.FieldMap.removePKIfZero at hf
    rcases h1 : Models.pkStep fm ("id") with _ | fm2
    · rw [h1] at hf
      cases hf
    · rw [h1] at hf
      simp only [Option.bind] at hf
      have hIDm := hID_pres fm2 h1
      have hid2 : Models.fmLookup fm' ("id") = Models.fmLookup fm2 ("id") := by
        rcases pkStep_cases fm2 ("ID") fm' hf with ⟨_, rfl⟩ | ⟨_, rfl⟩
        · rw [fmLookup_fmDelete, if_neg (by decide)]
        · rfl
      refine ⟨?_, ?_, ?_, ?_⟩
      · intro hz
        rw [hid2]
        rcases pkStep_cases fm ("id") fm2 h1 with ⟨_, rfl⟩ | ⟨hne, rfl⟩
        · rw [fmLookup_fmDelete, if_pos rfl]
        · exact absurd hz hne
      · intro n hn hsome
        rw [hid2]
        rcases pkStep_cases fm ("id") fm2 h1 with ⟨hz, rfl⟩ | ⟨_, rfl⟩
        · rw [hz] at hsome
          cases hsome
          exact absurd rfl hn
        · exact hsome
      · intro hz
        rcases pkStep_cases fm2 ("ID") fm' hf with ⟨_, rfl⟩ | ⟨hne, rfl⟩
        · rw [fmLookup_fmDelete, if_pos rfl]
        · rw [hIDm] at hne
          exact absurd hz hne
      · intro n hn hsome
        rcases pkStep_cases fm2 ("ID") fm' hf with ⟨hz, rfl⟩ | ⟨_, rfl⟩
        · rw [hIDm] at hz
          rw [hz] at hsome
          cases hsome
          exact absurd rfl hn
        · rw [hIDm]
          exact hsome

/-- C10, witness: the contract evaluated on a concrete map holding a zero
`"id"` and a nonzero `"ID"`. -/
theorem removePKIfZero_contract_witness :
    Models.fmLookup [("ID", Models.FieldValue.int64V 7)] ("id") = none
    ∧ Models.fmLookup [("ID", Models.FieldValue.int64V 7)] ("ID")
        = some (Models.FieldValue.int64V 7) :=
  ⟨(removePKIfZero_contract
      [("id", Models.FieldValue.int64V 0), ("ID", Models.FieldValue.int64V 7)]).2
      [("ID", Models.FieldValue.int64V 7)] (by decide) |>.1 (by decide),
   (removePKIfZero_contract
      [("id", Models.FieldValue.int64V 0), ("ID", Models.FieldValue.int64V 7)]).2
      [("ID", Models.FieldValue.int64V 7)] (by decide) |>.2.2.2 7 (by decide)
      (by decide)⟩

end Hexya
